import Mathlib

/-!
Shallow embedding of the core of the Sharks-Save-Haven repository:
the SQLite-backed catalog store (src/db.rs), the recursive file-tree
copy and delete operations (src/filesystem.rs), and the add / edit /
remove workflows that compose them (src/game_saves.rs).

Machine integers (Rust i32, SQLite rowids) are modelled as Int: every id
the program produces is a small positive rowid, far from any overflow
boundary, and no arithmetic other than successor is performed on them.
-/

/-- A value stored in an SQLite cell, with the storage classes the
program can produce: INTEGER, TEXT and REAL.  A REAL cell arises only
from NUMERIC affinity converting a non-integral numeric string; the
program never reads a REAL back successfully (both its i32 and String
getters fail on it with a type error), so the real constructor records
the source literal rather than a floating-point value. -/
inductive SqlValue where
  | int (v : Int)
  | text (s : String)
  | real (s : String)
deriving Repr, DecidableEq

/-- Decimal value of a run of digit characters, most significant
first. -/
def decValue (cs : List Char) : Nat :=
  cs.foldl (fun a c => a * 10 + (c.toNat - 48)) 0

/-- Is every character an ASCII digit. -/
def allDigits (cs : List Char) : Bool := cs.all (fun c => c.isDigit)

/-- The whitespace characters SQLite skips around a numeric text:
space, tab, newline, vertical tab, form feed, carriage return. -/
def isSqlSpace (c : Char) : Bool :=
  c == ' ' || c == '\t' || c == '\n' || c == '\x0b' || c == '\x0c' || c == '\r'

/-- Strip the SQLite whitespace from both ends of the characters. -/
def trimSpaces (cs : List Char) : List Char :=
  ((cs.dropWhile isSqlSpace).reverse.dropWhile isSqlSpace).reverse

/-- Consume one optional leading sign: the negative flag and the rest. -/
def splitSign : List Char → Bool × List Char
  | [] => (false, [])
  | c :: rest =>
    if c == '-' then (true, rest)
    else if c == '+' then (false, rest)
    else (false, c :: rest)

/-- After the mantissa of a numeric literal has been read (its digits
with the dot removed, and the count of digits after the dot): accept
the end of the text, or a well-formed exponent part, and produce
(negative, mantissa value, decimal exponent); none when the mantissa
was empty or trailing characters remain. -/
def numTail (neg : Bool) (m : List Char) (flen : Nat) (r : List Char) :
    Option (Bool × Nat × Int) :=
  if m.isEmpty then none
  else
    match r with
    | [] => some (neg, decValue m, -(flen : Int))
    | c :: r4 =>
      if c == 'e' || c == 'E' then
        let sg := splitSign r4
        let ed := sg.2.takeWhile Char.isDigit
        if ed.isEmpty then none
        else if (sg.2.dropWhile Char.isDigit).isEmpty then
          some (neg, decValue m,
            (if sg.1 then -(decValue ed : Int) else (decValue ed : Int)) - (flen : Int))
        else none
      else none

/-- Parse of a complete well-formed SQLite numeric literal after the
sign and the integral digits: either a dot with optional further
digits, an exponent, or the end of the text. -/
def numAfterDigits (neg : Bool) (d1 r1 : List Char) : Option (Bool × Nat × Int) :=
  match r1 with
  | [] => numTail neg d1 0 []
  | c :: r2 =>
    if c == '.' then
      numTail neg (d1 ++ r2.takeWhile Char.isDigit) (r2.takeWhile Char.isDigit).length
        (r2.dropWhile Char.isDigit)
    else numTail neg d1 0 (c :: r2)

/-- SQLite text-to-number conversion: the trimmed text must be a
well-formed numeric literal — optional sign, digits with an optional
dot (digits on at least one side of it), optional exponent — and the
result is its exact decimal value (negative, mantissa, exponent with
the fractional digits folded in).  none when the text is not a
well-formed literal, in which case NUMERIC affinity keeps the TEXT. -/
def sqliteNum? (s : String) : Option (Bool × Nat × Int) :=
  let sg := splitSign (trimSpaces s.data)
  numAfterDigits sg.1 (sg.2.takeWhile Char.isDigit) (sg.2.dropWhile Char.isDigit)

/-- Whether the exact rational m·10^e is an integer. -/
def numIsIntegral (m : Nat) (e : Int) : Bool :=
  0 ≤ e || m % 10 ^ e.natAbs == 0

/-- The integer value of the integral rational (sign, m, e). -/
def numIntVal (neg : Bool) (m : Nat) (e : Int) : Int :=
  let a : Int := if 0 ≤ e then (m : Int) * (10 : Int) ^ e.natAbs
                 else (m : Int) / (10 : Int) ^ e.natAbs
  if neg then -a else a

def i64Min : Int := -9223372036854775808

def i64Max : Int := 9223372036854775807

/-- NUMERIC column affinity of the release_date column (declared DATE):
a well-formed numeric literal whose exact value is an integer fitting a
signed 64-bit integer is stored as an INTEGER — this covers plain
integer literals, whitespace-padded numbers, and integral real
literals such as 1995.0 or 3.0e+5 — any other well-formed literal is
stored as REAL, and a non-numeric string is kept as TEXT.  Modelled
scope: the value is the literal's exact rational, whereas SQLite
computes it through an IEEE double, so a literal needing more
significant digits than a double holds may be classified REAL here and
INTEGER by SQLite; no theorem below quantifies over such literals (the
only hypotheses on this function are equality with a TEXT result, and
round-trips of plain i32 decimal renderings). -/
def numericAffinity (s : String) : SqlValue :=
  match sqliteNum? s with
  | none => .text s
  | some (neg, m, e) =>
    if numIsIntegral m e then
      if i64Min ≤ numIntVal neg m e ∧ numIntVal neg m e ≤ i64Max then .int (numIntVal neg m e)
      else .real s
    else .real s

/-- The ASCII digit character of a value below ten. -/
def digitChar (n : Nat) : Char :=
  match n with
  | 0 => '0' | 1 => '1' | 2 => '2' | 3 => '3' | 4 => '4'
  | 5 => '5' | 6 => '6' | 7 => '7' | 8 => '8' | _ => '9'

/-- The decimal digits of a natural number, least significant first,
computed with enough fuel to be structurally recursive. -/
def natDigitsRevFuel : Nat → Nat → List Char
  | 0, _ => []
  | fuel + 1, n =>
    if n < 10 then [digitChar n]
    else digitChar (n % 10) :: natDigitsRevFuel fuel (n / 10)

/-- The decimal digits of a natural number, least significant first. -/
def natDigitsRev (n : Nat) : List Char := natDigitsRevFuel (n + 1) n

/-- Decimal rendering of a natural number. -/
def natDisplay (n : Nat) : String := ⟨(natDigitsRev n).reverse⟩

/-- The decimal rendering an i32 gets from to_string in Rust. -/
def intDisplay : Int → String
  | .ofNat n => natDisplay n
  | .negSucc n => "-" ++ natDisplay (n + 1)

/-- A row of the Game table: id INTEGER PRIMARY KEY, title TEXT,
publisher TEXT, release_date DATE (NUMERIC affinity). -/
structure GameRow where
  id : Int
  title : String
  publisher : String
  release_date : SqlValue
deriving Repr, DecidableEq

/-- A row of the Platform table: id INTEGER PRIMARY KEY AUTOINCREMENT,
platform_name TEXT NOT NULL UNIQUE. -/
structure PlatformRow where
  id : Int
  platform_name : String
deriving Repr, DecidableEq

/-- A row of the Location table. -/
structure LocationRow where
  id : Int
  location_path : String
  description : String
deriving Repr, DecidableEq

/-- A row of the Save table. -/
structure SaveRow where
  id : Int
  game_id : Int
  location_id : Int
  metadata : String
  platform_id : Int
deriving Repr, DecidableEq

/-- The Rust struct Game of src/db.rs: note release_date is an i32 there,
and the struct has a platform field that no Game table column backs. -/
structure Game where
  id : Int
  title : String
  publisher : String
  release_date : Int
  platform : String
deriving Repr, DecidableEq

/-- The Rust struct Platform of src/db.rs. -/
structure Platform where
  id : Int
  platform_name : String
deriving Repr, DecidableEq

/-- The Rust struct Location of src/db.rs. -/
structure Location where
  id : Int
  location_path : String
  description : String
deriving Repr, DecidableEq

/-- The Rust struct Save of src/db.rs (metadata is an Option there). -/
structure Save where
  id : Int
  game_id : Int
  location_id : Int
  metadata : Option String
  platform_id : Int
deriving Repr, DecidableEq

/-- Errors of the rusqlite row accessors that the code can hit:
row.get(i) with i past the SELECT column list, row.get with a value of
the wrong type, and a query executed with the wrong number of bound
parameters. -/
inductive DbErr where
  | invalidColumnIndex (i : Nat)
  | invalidColumnType (i : Nat)
  | invalidParameterCount (provided expected : Nat)
  | outOfRange (i : Nat) (v : Int)
deriving Repr, DecidableEq

/-- Does the integer fit a signed 32-bit integer. -/
def inI32 (v : Int) : Bool := -2147483648 ≤ v && v ≤ 2147483647

/-- row.get::<i32>(i) on a query result row: rusqlite reads the INTEGER
cell as an i64 and then narrows, returning
Error::IntegralValueOutOfRange for a stored integer outside i32, and
InvalidColumnType for a TEXT or REAL cell. -/
def colInt (row : List SqlValue) (i : Nat) : Except DbErr Int :=
  match row.get? i with
  | some (.int v) => if inI32 v then .ok v else .error (.outOfRange i v)
  | some (.text _) => .error (.invalidColumnType i)
  | some (.real _) => .error (.invalidColumnType i)
  | none => .error (.invalidColumnIndex i)

/-- row.get::<String>(i) on a query result row (rusqlite does not coerce
an INTEGER or REAL cell to String). -/
def colText (row : List SqlValue) (i : Nat) : Except DbErr String :=
  match row.get? i with
  | some (.text s) => .ok s
  | some (.int _) => .error (.invalidColumnType i)
  | some (.real _) => .error (.invalidColumnType i)
  | none => .error (.invalidColumnIndex i)

/-- row.get(i).unwrap_or_default() for an i32 field. -/
def colIntD (row : List SqlValue) (i : Nat) : Int :=
  match colInt row i with
  | .ok v => v
  | .error _ => 0

/-- row.get(i).unwrap_or_default() for a String field. -/
def colTextD (row : List SqlValue) (i : Nat) : String :=
  match colText row i with
  | .ok s => s
  | .error _ => ""

/-- The catalog store: the four tables in rowid order, plus the
AUTOINCREMENT sequence counter of the Platform table. -/
structure Db where
  games : List GameRow
  platforms : List PlatformRow
  locations : List LocationRow
  saves : List SaveRow
  platform_seq : Int
deriving Repr, DecidableEq

def Db.empty : Db := ⟨[], [], [], [], 0⟩

/-- Rowid assignment of an INTEGER PRIMARY KEY table without
AUTOINCREMENT: one more than the largest rowid in use. -/
def freshId (ids : List Int) : Int := ids.foldl max 0 + 1

/-- INSERT INTO Game (title, publisher, release_date) VALUES (?1,?2,?3)
followed by last_insert_rowid(). -/
def Db.insert_game (db : Db) (title publisher release_date : String) : Int × Db :=
  let id := freshId (db.games.map (fun g => g.id))
  (id, { db with games := db.games ++ [⟨id, title, publisher, numericAffinity release_date⟩] })

/-- Db::insert_platform: SELECT id FROM Platform WHERE platform_name = ?1
(the = operator on TEXT is case-sensitive); if a row is found its id is
returned unchanged, otherwise a fresh row is inserted (the INSERT OR
REPLACE with a NULL id subquery degenerates to a plain insert) and the
new AUTOINCREMENT id is returned. -/
def Db.insert_platform (db : Db) (platform_name : String) : Int × Db :=
  match db.platforms.find? (fun p => p.platform_name == platform_name) with
  | some p => (p.id, db)
  | none =>
    let id := db.platform_seq + 1
    (id, { db with platforms := db.platforms ++ [⟨id, platform_name⟩], platform_seq := id })

/-- INSERT INTO Location (location_path, description) VALUES (?1,?2). -/
def Db.insert_location (db : Db) (location_path description : String) : Int × Db :=
  let id := freshId (db.locations.map (fun l => l.id))
  (id, { db with locations := db.locations ++ [⟨id, location_path, description⟩] })

/-- INSERT INTO Save (game_id, location_id, metadata, platform_id). -/
def Db.insert_save (db : Db) (game_id location_id : Int) (metadata : String)
    (platform_id : Int) : Int × Db :=
  let id := freshId (db.saves.map (fun s => s.id))
  (id, { db with saves := db.saves ++ [⟨id, game_id, location_id, metadata, platform_id⟩] })

/-- UPDATE Game SET title = ?1, publisher = ?2, release_date = ?3
WHERE id = ?4 (a no-op when no row matches). -/
def Db.update_game (db : Db) (game_id : Int) (title publisher release_date : String) : Db :=
  { db with games := db.games.map (fun g =>
      if g.id == game_id then ⟨g.id, title, publisher, numericAffinity release_date⟩ else g) }

/-- The result row of SELECT * FROM Game: four columns. -/
def gameSelectRow (g : GameRow) : List SqlValue :=
  [.int g.id, .text g.title, .text g.publisher, g.release_date]

/-- The row mapper of Db::get_game / get_game_by_title /
get_games_by_title: id via row.get(0)?, every other field via
row.get(i).unwrap_or_default() — including platform at index 4, one past
the columns of SELECT * FROM Game. -/
def mapGameRow (row : List SqlValue) : Except DbErr Game := do
  let id ← colInt row 0
  pure ⟨id, colTextD row 1, colTextD row 2, colIntD row 3, colTextD row 4⟩

/-- The sentinel Game returned when no row matches: id -1, empty
strings, release_date 0. -/
def sentinelGame : Game := ⟨-1, "", "", 0, ""⟩

/-- Db::get_game: the first row with the given id, mapped; the sentinel
when none matches. -/
def Db.get_game (db : Db) (game_id : Int) : Except DbErr Game :=
  match db.games.find? (fun g => g.id == game_id) with
  | some g => mapGameRow (gameSelectRow g)
  | none => .ok sentinelGame

/-- Lower-case an ASCII letter; SQLite folds only ASCII under LIKE. -/
def lowerAscii (c : Char) : Char :=
  if 'A' ≤ c && c ≤ 'Z' then Char.ofNat (c.toNat + 32) else c

/-- SQLite LIKE matching with its default settings: percent matches any
sequence, underscore any single character, and ordinary characters
compare case-insensitively over ASCII. -/
def likeMatch : List Char → List Char → Bool
  | [], s => s.isEmpty
  | c :: ps, s =>
    if c == '%' then
      match s with
      | [] => likeMatch ps []
      | d :: ss => likeMatch ps (d :: ss) || likeMatch (c :: ps) ss
    else if c == '_' then
      match s with
      | [] => false
      | _ :: ss => likeMatch ps ss
    else
      match s with
      | [] => false
      | d :: ss => (lowerAscii c == lowerAscii d) && likeMatch ps ss
termination_by p s => (s.length, p.length)

/-- Db::get_games_by_title: SELECT * FROM Game WHERE title LIKE ?1 with
the argument "{title}%", rows mapped like get_game and collected,
stopping at the first mapper error. -/
def Db.get_games_by_title (db : Db) (title : String) : Except DbErr (List Game) :=
  (db.games.filter (fun g => likeMatch (title ++ "%").data g.title.data)).mapM
    (fun g => mapGameRow (gameSelectRow g))

/-- Db::get_platform: SELECT platform_name FROM Platform WHERE id = ?1,
the name read with unwrap_or_default; sentinel id -1 and empty name when
no row matches. -/
def Db.get_platform (db : Db) (platform_id : Int) : Platform :=
  match db.platforms.find? (fun p => p.id == platform_id) with
  | some p => ⟨platform_id, colTextD [.text p.platform_name] 0⟩
  | none => ⟨-1, ""⟩

/-- Db::get_location: SELECT location_path, description FROM Location
WHERE id = ?1; sentinel id -1 and empty strings when no row matches. -/
def Db.get_location (db : Db) (location_id : Int) : Location :=
  match db.locations.find? (fun l => l.id == location_id) with
  | some l => ⟨location_id, colTextD [.text l.location_path, .text l.description] 0,
      colTextD [.text l.location_path, .text l.description] 1⟩
  | none => ⟨-1, "", ""⟩

/-- The result row of SELECT * FROM Save: five columns. -/
def saveSelectRow (s : SaveRow) : List SqlValue :=
  [.int s.id, .int s.game_id, .int s.location_id, .text s.metadata, .int s.platform_id]

/-- The row mapper of Db::get_all_saves_by_id / get_saves_by_game_id:
ids via row.get(i)?, metadata via row.get(3).unwrap_or_default() into an
Option (None on failure). -/
def mapSaveRow (row : List SqlValue) : Except DbErr Save := do
  let id ← colInt row 0
  let game_id ← colInt row 1
  let location_id ← colInt row 2
  let platform_id ← colInt row 4
  pure ⟨id, game_id, location_id, (colText row 3).toOption, platform_id⟩

/-- Db::get_all_saves_by_id: SELECT * FROM Save WHERE game_id = ?1. -/
def Db.get_all_saves_by_id (db : Db) (game_id : Int) : Except DbErr (List Save) :=
  (db.saves.filter (fun s => s.game_id == game_id)).mapM
    (fun s => mapSaveRow (saveSelectRow s))

/-- Db::get_all_games: SELECT * FROM Game (four columns), but the row
mapper reads all five struct fields with row.get(i)? — index 4 does not
exist, so every row fails to map. -/
def Db.get_all_games (db : Db) : Except DbErr (List Game) :=
  db.games.mapM (fun g => do
    let row := gameSelectRow g
    let id ← colInt row 0
    let title ← colText row 1
    let publisher ← colText row 2
    let release_date ← colInt row 3
    let platform ← colText row 4
    pure (Game.mk id title publisher release_date platform))

/-- Db::get_all_platforms: SELECT * FROM Platform, both columns read
with row.get(i)?. -/
def Db.get_all_platforms (db : Db) : Except DbErr (List Platform) :=
  db.platforms.mapM (fun p => do
    let row : List SqlValue := [.int p.id, .text p.platform_name]
    let id ← colInt row 0
    let name ← colText row 1
    pure (Platform.mk id name))

/-- Db::get_all_locations: the SELECT names only location_path (one
column), but the mapper reads id at index 0 as an i32 (a TEXT cell:
type error on the first row), location_path at 1 and description at 2
(indices past the column list). -/
def Db.get_all_locations (db : Db) : Except DbErr (List Location) :=
  db.locations.mapM (fun l => do
    let row : List SqlValue := [.text l.location_path]
    let id ← colInt row 0
    let path ← colText row 1
    let desc ← colText row 2
    pure (Location.mk id path desc))

/-- Db::get_all_saves: SELECT metadata FROM Save, the single column read
with row.get(0). -/
def Db.get_all_saves (db : Db) : Except DbErr (List String) :=
  db.saves.mapM (fun s => colText [.text s.metadata] 0)

/-- Db::get_all_saves_for_platform: the statement expects one bound
parameter (platform_id) but query_map is called with an empty parameter
list, so rusqlite rejects the query before producing any row. -/
def Db.get_all_saves_for_platform (_db : Db) (_platform_id : Int) : Except DbErr (List String) :=
  .error (.invalidParameterCount 0 1)

/-- DELETE FROM Game WHERE id = ?1. -/
def Db.delete_game (db : Db) (game_id : Int) : Db :=
  { db with games := db.games.filter (fun g => !(g.id == game_id)) }

/-- DELETE FROM Save WHERE id = ?1. -/
def Db.delete_save (db : Db) (save_id : Int) : Db :=
  { db with saves := db.saves.filter (fun s => !(s.id == save_id)) }

/-- DELETE FROM Location WHERE id = ?1. -/
def Db.delete_location (db : Db) (location_id : Int) : Db :=
  { db with locations := db.locations.filter (fun l => !(l.id == location_id)) }

/-- A directory entry on disk: a regular file with its byte contents, or
a subdirectory with its own listing.  Symbolic links and special files
are out of the modelled scope, as the source only handles is_file and
is_dir entries. -/
inductive Entry where
  | file (contents : List Nat)
  | dir (entries : List (String × Entry))

/-- The outcome of an operation at process level: a returned value, a
returned Err, or a panic (the abort produced by .expect / .unwrap). -/
inductive Outcome (α : Type) where
  | ok (val : α)
  | err (msg : String)
  | panic (msg : String)
deriving Repr, DecidableEq

/-- The entry a directory listing holds under a name, if any. -/
def lookupEntry (d : List (String × Entry)) (n : String) : Option Entry :=
  (d.find? (fun p => p.1 == n)).map (fun p => p.2)

/-- Writing an entry under a name: replace the existing binding in
place, or append a new one. -/
def setEntry (d : List (String × Entry)) (n : String) (e : Entry) : List (String × Entry) :=
  match d with
  | [] => [(n, e)]
  | (m, x) :: rest => if m == n then (m, e) :: rest else (m, x) :: setEntry rest n e

/-- The loop body of Filesystem::copy_files over the entries of the
source directory, acting on the destination listing d.  A regular file
is copied with fs::copy (overwriting a file, failing on a directory); a
subdirectory is copied by a recursive call whose Err is turned into a
panic by .expect("Failed to copy files").  A recursive call aimed at a
name the destination holds as a file fails inside (create_dir_all is
skipped because the path exists, and every copy into it then fails)
unless the source subdirectory is empty, in which case it copies
nothing. -/
def copyEntries : List (String × Entry) → List (String × Entry) →
    Outcome (List (String × Entry))
  | [], d => .ok d
  | (n, .file c) :: rest, d =>
    match lookupEntry d n with
    | some (.dir _) => .err "copy failed"
    | _ => copyEntries rest (setEntry d n (.file c))
  | (n, .dir sub) :: rest, d =>
    match lookupEntry d n with
    | some (.file _) =>
      if sub.isEmpty then copyEntries rest d
      else .panic "Failed to copy files"
    | some (.dir es) =>
      match copyEntries sub es with
      | .ok sub2 => copyEntries rest (setEntry d n (.dir sub2))
      | .err _ => .panic "Failed to copy files"
      | .panic m => .panic m
    | none =>
      match copyEntries sub [] with
      | .ok sub2 => copyEntries rest (setEntry d n (.dir sub2))
      | .err _ => .panic "Failed to copy files"
      | .panic m => .panic m
termination_by l _ => sizeOf l

/-- Filesystem::copy_files: none for a source or destination path that
does not exist.  A missing destination is created empty by
create_dir_all (with any missing parents); read_dir on a missing source
fails and the question-mark operator returns that Err. -/
def copy_files (src : Option (List (String × Entry)))
    (dst : Option (List (String × Entry))) : Outcome (List (String × Entry)) :=
  match src with
  | none => .err "read_dir failed"
  | some s => copyEntries s (dst.getD [])

/-- Filesystem::delete_files: every regular file is removed with
fs::remove_file, every subdirectory is recursed into; no directory is
ever removed. -/
def delete_files : List (String × Entry) → List (String × Entry)
  | [] => []
  | (_, .file _) :: rest => delete_files rest
  | (n, .dir sub) :: rest => (n, .dir (delete_files sub)) :: delete_files rest
termination_by l => sizeOf l

/-- The world the orchestrator acts on: the catalog store plus the
backup tree, addressed by the (game_id, platform_id, save_id) triple
that names the directory backups/{game_id}/{platform_id}/{save_id}/. -/
structure World where
  db : Db
  backups : List ((Int × Int × Int) × List (String × Entry))

/-- Whether a backup directory exists for a triple, and its listing. -/
def lookupBackup (b : List ((Int × Int × Int) × List (String × Entry)))
    (k : Int × Int × Int) : Option (List (String × Entry)) :=
  (b.find? (fun p => p.1 == k)).map (fun p => p.2)

/-- Store a backup directory listing under a triple. -/
def setBackup (b : List ((Int × Int × Int) × List (String × Entry)))
    (k : Int × Int × Int) (d : List (String × Entry)) :
    List ((Int × Int × Int) × List (String × Entry)) :=
  match b with
  | [] => [(k, d)]
  | (m, x) :: rest => if m == k then (m, d) :: rest else (m, x) :: setBackup rest k d

/-- fs::remove_dir_all on the directory of a triple. -/
def removeBackup (b : List ((Int × Int × Int) × List (String × Entry)))
    (k : Int × Int × Int) : List ((Int × Int × Int) × List (String × Entry)) :=
  b.filter (fun p => !(p.1 == k))

/-- GameSaves::add_game_save after the prompts: insert_game,
insert_platform (deduplicating), insert_location with an empty
description, insert_save with empty metadata, then copy_files from the
live save directory (None when the entered path does not exist) into
backups/{game_id}/{platform_id}/{save_id}/.  Every fallible step is
wrapped in .expect, so a failed copy panics instead of returning. -/
def addGameSave (w : World) (title publisher release_date platform location : String)
    (liveDir : Option (List (String × Entry))) : Outcome World :=
  let r1 := w.db.insert_game title publisher release_date
  let r2 := r1.2.insert_platform platform
  let r3 := r2.2.insert_location location ""
  let r4 := r3.2.insert_save r1.1 r3.1 "" r2.1
  let key := (r1.1, r2.1, r4.1)
  match copy_files liveDir (lookupBackup w.backups key) with
  | .ok d => .ok ⟨r4.2, setBackup w.backups key d⟩
  | .err _ => .panic "Failed to copy files"
  | .panic m => .panic m

/-- The body of the per-save loop of GameSaves::remove_game_save:
remove the backup directory backups/{game_id}/{platform_id}/{save_id}/
if it exists, then delete_save and delete_location. -/
def removeStep (acc : World) (s : Save) : World :=
  let key := (s.game_id, s.platform_id, s.id)
  let b2 := if (lookupBackup acc.backups key).isSome
            then removeBackup acc.backups key
            else acc.backups
  ⟨(acc.db.delete_save s.id).delete_location s.location_id, b2⟩

/-- GameSaves::remove_game_save: look the game up, enumerate its saves
with get_all_saves_by_id, run the per-save loop, and finally
delete_game.  The db calls are wrapped in .expect, whose failure is a
panic. -/
def removeGameSave (w : World) (game_id : Int) : Outcome World :=
  match w.db.get_game game_id with
  | .error _ => .panic "Failed to get game"
  | .ok _existing =>
    match w.db.get_all_saves_by_id game_id with
    | .error _ => .panic "Failed to get saves"
    | .ok saves =>
      let st := saves.foldl removeStep ⟨w.db, w.backups⟩
      .ok ⟨st.db.delete_game game_id, st.backups⟩

/-- GameSaves::edit_game_save from the point where the game id has been
chosen: read the current row with get_game, keep each field whose
replacement input is empty, and call update_game when at least one of
the three inputs is non-empty (the release date written back is the
decimal rendering of the i32 the row mapper produced). -/
def editGameSave (db : Db) (game_id : Int) (new_title new_publisher new_release_date : String) :
    Outcome Db :=
  match db.get_game game_id with
  | .error _ => .panic "Failed to get game"
  | .ok existing =>
    if new_title == "" && new_publisher == "" && new_release_date == "" then
      .ok db
    else
      let title := if new_title == "" then existing.title else new_title
      let publisher := if new_publisher == "" then existing.publisher else new_publisher
      let release_date := if new_release_date == "" then intDisplay existing.release_date
                          else new_release_date
      .ok (db.update_game game_id title publisher release_date)

/-- Reading a stored cell through the i32 getter with
unwrap_or_default: an INTEGER cell within i32 range gives its value,
an out-of-range INTEGER (OutOfRange error) and a TEXT or REAL cell
(InvalidColumnType error) give the default 0. -/
def readI32 : SqlValue → Int
  | .int v => if inI32 v then v else 0
  | .text _ => 0
  | .real _ => 0

/-- The Game struct that the row mapper of get_game and
get_games_by_title produces for a stored row. -/
def gameToStruct (g : GameRow) : Game :=
  ⟨g.id, g.title, g.publisher, readI32 g.release_date, ""⟩

/-- Case-insensitive ASCII starts-with, the spec-side description of
what a LIKE pattern "{p}%" free of wildcards matches. -/
def ciStarts : List Char → List Char → Bool
  | [], _ => true
  | _ :: _, [] => false
  | p :: ps, c :: ss => (lowerAscii p == lowerAscii c) && ciStarts ps ss

/-- The input contains neither of the LIKE wildcards percent and
underscore. -/
def noLikeWildcards (s : String) : Bool :=
  s.data.all (fun c => !(c == '%') && !(c == '_'))

/-- Case-sensitive starts-with over character lists. -/
def csStarts : List Char → List Char → Bool
  | [], _ => true
  | _ :: _, [] => false
  | p :: ps, c :: ss => (p == c) && csStarts ps ss

/-- Modelled from the claim wording of the prefix lookup: the games
whose title starts, case-sensitively, with the given string, in storage
order, mapped to the struct the code returns.  Stated only to be
compared against Db.get_games_by_title. -/
def specTitleLookup (db : Db) (p : String) : List Game :=
  (db.games.filter (fun g => csStarts p.data g.title.data)).map gameToStruct

/-- Does a tree contain any regular file, at any depth. -/
def hasFile : List (String × Entry) → Bool
  | [] => false
  | (_, .file _) :: _ => true
  | (_, .dir sub) :: rest => hasFile sub || hasFile rest
termination_by l => sizeOf l

/-- Does a listing contain a subdirectory entry at its top level. -/
def hasDirEntry : List (String × Entry) → Bool
  | [] => false
  | (_, .dir _) :: _ => true
  | (_, .file _) :: rest => hasDirEntry rest

/-- Well-formedness of a directory listing as read_dir produces it:
entry names are distinct at every level. -/
def wfDir : List (String × Entry) → Bool
  | [] => true
  | (n, e) :: rest =>
    !((rest.map (fun p => p.1)).contains n) &&
    (match e with
     | .file _ => true
     | .dir sub => wfDir sub) &&
    wfDir rest
termination_by l => sizeOf l

/-! Helper lemmas. -/

theorem le_foldl_max (l : List Int) : ∀ a : Int, a ≤ l.foldl max a := by
  induction l with
  | nil => intro a; exact le_refl a
  | cons z zs ih => intro a; exact le_trans (le_max_left a z) (ih (max a z))

theorem foldl_max_le_of_mem {ids : List Int} {x : Int} (hx : x ∈ ids) :
    ∀ a : Int, x ≤ ids.foldl max a := by
  induction ids with
  | nil => cases hx
  | cons y ys ih =>
    intro a
    rw [List.foldl_cons]
    rcases List.mem_cons.1 hx with h | h
    · subst h
      exact le_trans (le_max_right a x) (le_foldl_max ys (max a x))
    · exact ih h (max a y)

theorem lt_freshId_of_mem {ids : List Int} {x : Int} (hx : x ∈ ids) : x < freshId ids := by
  have := foldl_max_le_of_mem hx 0
  unfold freshId
  omega

theorem mapGameRow_gameSelectRow (g : GameRow) (h : inI32 g.id = true) :
    mapGameRow (gameSelectRow g) = .ok (gameToStruct g) := by
  cases g with
  | mk id t p rd =>
    simp only at h
    cases rd with
    | int v =>
      simp [mapGameRow, gameSelectRow, colIntD, colTextD, colInt, colText,
        gameToStruct, readI32, h]
      cases hiv : inI32 v <;> simp [hiv]
    | text s =>
      simp [mapGameRow, gameSelectRow, colIntD, colTextD, colInt, colText,
        gameToStruct, readI32, h]
    | real s =>
      simp [mapGameRow, gameSelectRow, colIntD, colTextD, colInt, colText,
        gameToStruct, readI32, h]

theorem mapM_gameRows (l : List GameRow) (h : ∀ g ∈ l, inI32 g.id = true) :
    l.mapM (fun g => mapGameRow (gameSelectRow g)) = .ok (l.map gameToStruct) := by
  induction l with
  | nil => rfl
  | cons g gs ih =>
    rw [List.mapM_cons, mapGameRow_gameSelectRow g (h g (List.mem_cons_self g gs)),
      ih (fun x hx => h x (List.mem_cons_of_mem g hx))]
    rfl

/-- The Save struct that the row mapper of get_all_saves_by_id produces
for a stored row whose id columns all fit i32. -/
def saveToStruct (s : SaveRow) : Save :=
  ⟨s.id, s.game_id, s.location_id, some s.metadata, s.platform_id⟩

theorem mapSaveRow_ok_eq (r : SaveRow) (s : Save)
    (h : mapSaveRow (saveSelectRow r) = .ok s) : s = saveToStruct r := by
  cases r with
  | mk i g l m p =>
    simp only [mapSaveRow, saveSelectRow, colInt, colText, List.get?] at h
    split at h
    · split at h
      · split at h
        · split at h
          · simp only [saveToStruct]
            have := Except.ok.inj h
            exact this.symm
          · cases h
        · cases h
      · cases h
    · cases h

theorem mapM_ok_of_mem {α β : Type} (f : α → Except DbErr β) :
    ∀ (l : List α) (ys : List β), l.mapM f = .ok ys →
      ∀ x ∈ l, ∃ y, f x = .ok y ∧ y ∈ ys := by
  intro l
  induction l with
  | nil => intro ys _ x hx; exact absurd hx (List.not_mem_nil x)
  | cons a rest ih =>
    intro ys hmap x hx
    rw [List.mapM_cons] at hmap
    cases hfa : f a with
    | error e => rw [hfa] at hmap; cases hmap
    | ok y =>
      rw [hfa] at hmap
      cases hml : rest.mapM f with
      | error e =>
        rw [hml] at hmap
        cases hmap
      | ok ys2 =>
        rw [hml] at hmap
        have hys : ys = y :: ys2 := Except.ok.inj hmap.symm
        subst hys
        rcases List.mem_cons.1 hx with h | h
        · subst h
          exact ⟨y, hfa, List.mem_cons_self y ys2⟩
        · obtain ⟨y2, hy2, hy2m⟩ := ih ys2 hml x h
          exact ⟨y2, hy2, List.mem_cons_of_mem y hy2m⟩

/-- Number of Platform rows carrying a given name. -/
def platformCount (db : Db) (n : String) : Nat :=
  (db.platforms.filter (fun p => p.platform_name == n)).length

/-- C2: calling insert_platform twice with the same name returns the
same id on both calls and leaves exactly one Platform row with that
name, provided the store respects the name-uniqueness invariant (at
most one row with that name) beforehand — which every store built by
the program does. -/
theorem c2_insert_platform_idempotent (db : Db) (n : String)
    (h : platformCount db n ≤ 1) :
    ((db.insert_platform n).2.insert_platform n).1 = (db.insert_platform n).1 ∧
    platformCount ((db.insert_platform n).2.insert_platform n).2 n = 1 := by
  unfold Db.insert_platform platformCount
  cases hf : db.platforms.find? (fun p => p.platform_name == n) with
  | some p =>
    simp only [hf]
    have hpmem : p ∈ db.platforms := List.mem_of_find?_eq_some hf
    have hpname : (p.platform_name == n) = true :=
      @List.find?_some _ (fun q => q.platform_name == n) p db.platforms hf
    have hmemf : p ∈ db.platforms.filter (fun q => q.platform_name == n) :=
      List.mem_filter.2 ⟨hpmem, hpname⟩
    have hlen : 0 < (db.platforms.filter (fun q => q.platform_name == n)).length :=
      List.length_pos.2 (fun hnil => by rw [hnil] at hmemf; cases hmemf)
    unfold platformCount at h
    exact ⟨trivial, by omega⟩
  | none =>
    simp only [hf]
    have hfound : (db.platforms ++ [(⟨db.platform_seq + 1, n⟩ : PlatformRow)]).find?
        (fun p => p.platform_name == n) = some (⟨db.platform_seq + 1, n⟩ : PlatformRow) := by
      rw [List.find?_append, hf]
      simp
    simp only [hfound]
    have hfil : db.platforms.filter (fun p => p.platform_name == n) = [] :=
      List.filter_eq_nil_iff.2 (fun p hmem => by
        have := List.find?_eq_none.1 hf p hmem
        simpa using this)
    rw [List.filter_append, hfil]
    simp

/-- Witness for C2 at a concrete input: inserting the platform name
SNES twice into the empty store. -/
theorem c2_insert_platform_idempotent_witness :
    ((Db.empty.insert_platform "SNES").2.insert_platform "SNES").1 =
      (Db.empty.insert_platform "SNES").1 ∧
    platformCount ((Db.empty.insert_platform "SNES").2.insert_platform "SNES").2 "SNES" = 1 :=
  c2_insert_platform_idempotent Db.empty "SNES" (by decide)

theorem delete_files_no_file : ∀ d, hasFile (delete_files d) = false := by
  intro d
  induction d using delete_files.induct with
  | case1 => simp [delete_files, hasFile]
  | case2 _ _ rest ih => simpa [delete_files] using ih
  | case3 n sub rest ih1 ih2 => simp [delete_files, hasFile, ih1, ih2]

theorem delete_files_nil_iff : ∀ d, delete_files d = [] ↔ hasDirEntry d = false := by
  intro d
  induction d using delete_files.induct with
  | case1 => simp [delete_files, hasDirEntry]
  | case2 _ _ rest ih => simpa [delete_files, hasDirEntry] using ih
  | case3 n sub rest ih1 ih2 => simp [delete_files, hasDirEntry]

/-- C4 counterexample: on a directory holding one subdirectory with one
file, delete_files removes the file but keeps the subdirectory, so the
path is neither removed nor empty, contradicting the claim. -/
theorem c4_delete_files_counterexample :
    delete_files [("sub", Entry.dir [("a.sav", Entry.file [7])])]
      = [("sub", Entry.dir [])] ∧
    ([("sub", Entry.dir [])] : List (String × Entry)) ≠ [] := by
  refine ⟨by simp [delete_files], by simp⟩

/-- C4 as amended: delete_files removes every regular file under the
path, recursively, but removes no directory — the path is left holding
the intact (file-free) subdirectory skeleton, and is empty exactly when
the tree held no subdirectory at its top level. -/
theorem c4_delete_files_removes_files_only (d : List (String × Entry)) :
    hasFile (delete_files d) = false ∧
    (delete_files d = [] ↔ hasDirEntry d = false) :=
  ⟨delete_files_no_file d, delete_files_nil_iff d⟩

/-- C5: the bulk lookups do not return the stored rows.  get_all_games
fails on any non-empty Game table (its mapper reads column index 4 of a
four-column SELECT), get_all_locations fails on any non-empty Location
table (its mapper reads the single TEXT column as an id and indices 1
and 2 past the column list), and get_all_saves_for_platform always
fails (one expected bound parameter, none supplied). -/
theorem c5_bulk_lookups_error :
    (Db.empty.insert_game "Chrono Trigger" "Square" "1995").2.get_all_games
      = .error (.invalidColumnIndex 4) ∧
    (Db.empty.insert_location "/saves/ct" "").2.get_all_locations
      = .error (.invalidColumnType 0) ∧
    Db.empty.get_all_saves_for_platform 1 = .error (.invalidParameterCount 0 1) :=
  ⟨rfl, rfl, rfl⟩

/-- C8: for an id with no matching row, the point lookups get_game,
get_platform and get_location return the documented sentinel (id -1 and
empty string fields, release_date 0) instead of failing. -/
theorem c8_point_lookups_sentinel (db : Db) (id : Int)
    (hg : ∀ g ∈ db.games, g.id ≠ id)
    (hp : ∀ p ∈ db.platforms, p.id ≠ id)
    (hl : ∀ l ∈ db.locations, l.id ≠ id) :
    db.get_game id = .ok sentinelGame ∧
    db.get_platform id = ⟨-1, ""⟩ ∧
    db.get_location id = ⟨-1, "", ""⟩ := by
  refine ⟨?_, ?_, ?_⟩
  · unfold Db.get_game
    rw [List.find?_eq_none.2 (fun g hmem => by simpa using hg g hmem)]
  · unfold Db.get_platform
    rw [List.find?_eq_none.2 (fun p hmem => by simpa using hp p hmem)]
  · unfold Db.get_location
    rw [List.find?_eq_none.2 (fun l hmem => by simpa using hl l hmem)]

/-- Witness for C8 at a concrete input: id 42 on the empty store. -/
theorem c8_point_lookups_sentinel_witness :
    Db.empty.get_game 42 = .ok sentinelGame ∧
    Db.empty.get_platform 42 = ⟨-1, ""⟩ ∧
    Db.empty.get_location 42 = ⟨-1, "", ""⟩ :=
  c8_point_lookups_sentinel Db.empty 42 (by intro g hg; cases hg)
    (by intro p hp; cases hp) (by intro l hl; cases hl)

/-- C10 counterexample: the claim reads literally as covering every
date string that does not parse as an integer, but SQLite NUMERIC
affinity also stores integral REAL literals as INTEGER: the date
1995.0 does not parse as an integer, yet it is stored as the INTEGER
1995 and get_game reads back 1995, not 0. -/
theorem c10_real_literal_counterexample :
    (Db.empty.insert_game "Chrono Trigger" "Square" "1995.0").2.get_game 1 =
      .ok ⟨1, "Chrono Trigger", "Square", 1995, ""⟩ ∧
    (Db.empty.insert_game "Chrono Trigger" "Square" "1995.0").2.get_game 1 ≠
      .ok ⟨1, "Chrono Trigger", "Square", 0, ""⟩ := by
  refine ⟨rfl, fun hcon => ?_⟩
  exact absurd (Except.ok.inj hcon) (by decide)

/-- C10 as amended: a game inserted with a release_date string that is not a
well-formed numeric literal (an ISO date, for instance), so that
NUMERIC affinity keeps it as TEXT, reads back through get_game on the
fresh id with the inserted title and publisher but release_date 0 —
the stored date string is not recoverable through the integer-typed
field.  The id hypothesis is the program's rowid invariant: the fresh
id fits an i32 (it is one more than the largest rowid in use). -/
theorem c10_nonint_release_date_reads_zero (db : Db) (t p d : String)
    (h : numericAffinity d = .text d)
    (hid : inI32 (db.insert_game t p d).1 = true) :
    (db.insert_game t p d).2.get_game (db.insert_game t p d).1 =
      .ok ⟨(db.insert_game t p d).1, t, p, 0, ""⟩ := by
  unfold Db.insert_game at hid ⊢
  unfold Db.get_game
  simp only at hid
  have hnone : db.games.find?
      (fun g => g.id == freshId (db.games.map (fun g => g.id))) = none := by
    refine List.find?_eq_none.2 (fun g hg => ?_)
    have : g.id < freshId (db.games.map (fun g => g.id)) :=
      lt_freshId_of_mem (List.mem_map_of_mem (fun g => g.id) hg)
    simp only [beq_iff_eq]
    omega
  simp only [List.find?_append, hnone, Option.none_or, List.find?_cons, beq_self_eq_true,
    cond_true]
  simp [mapGameRow, gameSelectRow, colTextD, colIntD, colInt, colText, h, hid,
    gameToStruct]

/-- Witness for C10 at a concrete input: the date 1995-03-11 inserted
into the empty store. -/
theorem c10_nonint_release_date_reads_zero_witness :
    (Db.empty.insert_game "Chrono Trigger" "Square" "1995-03-11").2.get_game
      (Db.empty.insert_game "Chrono Trigger" "Square" "1995-03-11").1 =
      .ok ⟨(Db.empty.insert_game "Chrono Trigger" "Square" "1995-03-11").1,
        "Chrono Trigger", "Square", 0, ""⟩ :=
  c10_nonint_release_date_reads_zero Db.empty "Chrono Trigger" "Square" "1995-03-11"
    (by decide) (by decide)

theorem likeMatch_pct : ∀ s : List Char, likeMatch ['%'] s = true := by
  intro s
  induction s with
  | nil => simp [likeMatch]
  | cons c ss ih => simp [likeMatch, ih]

theorem likeMatch_wildcardfree (p : List Char)
    (hp : ∀ c ∈ p, ¬(c = '%') ∧ ¬(c = '_')) :
    ∀ s : List Char, likeMatch (p ++ ['%']) s = ciStarts p s := by
  induction p with
  | nil => intro s; simpa [ciStarts] using likeMatch_pct s
  | cons c ps ih =>
    intro s
    have hc := hp c (List.mem_cons_self c ps)
    have hps : ∀ x ∈ ps, ¬(x = '%') ∧ ¬(x = '_') :=
      fun x hx => hp x (List.mem_cons_of_mem c hx)
    cases s with
    | nil => simp [likeMatch, ciStarts, hc.1, hc.2]
    | cons d ss => simp [likeMatch, ciStarts, hc.1, hc.2, ih hps ss]

theorem get_games_by_title_eq (db : Db) (t : String)
    (hids : ∀ g ∈ db.games, inI32 g.id = true) :
    db.get_games_by_title t =
      .ok ((db.games.filter
        (fun g => likeMatch (t ++ "%").data g.title.data)).map gameToStruct) := by
  unfold Db.get_games_by_title
  exact mapM_gameRows _ (fun g hg => hids g (List.mem_of_mem_filter hg))

/-- C6 counterexample: the lookup is not case-sensitive.  With a single
game titled abc in the store, the input A — which is a case-sensitive
match of no title — returns that game, because SQLite LIKE compares
ASCII letters case-insensitively. -/
theorem c6_title_lookup_counterexample :
    (Db.empty.insert_game "abc" "pub" "1").2.get_games_by_title "A" ≠
      .ok (specTitleLookup (Db.empty.insert_game "abc" "pub" "1").2 "A") := by
  have hL : (Db.empty.insert_game "abc" "pub" "1").2.get_games_by_title "A"
      = .ok [⟨1, "abc", "pub", 1, ""⟩] := by
    rw [get_games_by_title_eq _ _ (by decide)]
    have ha : (Db.empty.insert_game "abc" "pub" "1").2.games
        = [⟨1, "abc", "pub", SqlValue.int 1⟩] := by decide
    have hdata : (("A" ++ "%") : String).data = ['A', '%'] := rfl
    have hm : likeMatch ['A', '%'] "abc".data = true := by
      simp [likeMatch, lowerAscii]
    rw [ha]
    simp [hdata, hm, gameToStruct, readI32, inI32]
  have hR : specTitleLookup (Db.empty.insert_game "abc" "pub" "1").2 "A" = [] := by decide
  rw [hL, hR]
  simp

/-- C6 as amended: matching is case-insensitive over ASCII (the SQLite
LIKE default).  On a catalog whose Game ids all fit an i32 (the rowid
invariant of the program's own inserts — the row mapper errors on a
wider id), a search string free of the LIKE wildcards percent and
underscore returns exactly the games whose title starts with the string
up to ASCII case, in storage order (so a string matching no title gives
the empty list); the empty string returns every game in the catalog. -/
theorem c6_title_lookup_insensitive (db : Db) (p : String)
    (h : noLikeWildcards p = true)
    (hids : ∀ g ∈ db.games, inI32 g.id = true) :
    db.get_games_by_title p =
      .ok ((db.games.filter (fun g => ciStarts p.data g.title.data)).map gameToStruct) ∧
    db.get_games_by_title "" = .ok (db.games.map gameToStruct) := by
  constructor
  · rw [get_games_by_title_eq _ _ hids]
    have hdata : (p ++ "%").data = p.data ++ ['%'] := by
      have h2 : ("%" : String).data = ['%'] := rfl
      rw [← h2]
      exact String.data_append p "%"
    have hp : ∀ c ∈ p.data, ¬(c = '%') ∧ ¬(c = '_') := by
      intro c hc
      have := List.all_eq_true.1 h c hc
      constructor
      · intro he; subst he; simp at this
      · intro he; subst he; simp at this
    have hfil : db.games.filter (fun g => likeMatch (p ++ "%").data g.title.data)
        = db.games.filter (fun g => ciStarts p.data g.title.data) := by
      apply List.filter_congr
      intro g _
      rw [hdata, likeMatch_wildcardfree p.data hp g.title.data]
    rw [hfil]
  · rw [get_games_by_title_eq _ _ hids]
    have hfil : db.games.filter (fun g => likeMatch (("" ++ "%") : String).data g.title.data)
        = db.games := by
      have hall : ∀ g ∈ db.games,
          likeMatch (("" ++ "%") : String).data g.title.data = true := by
        intro g _
        exact likeMatch_pct g.title.data
      calc db.games.filter (fun g => likeMatch (("" ++ "%") : String).data g.title.data)
          = db.games.filter (fun _ => true) := List.filter_congr (fun g hg => hall g hg)
        _ = db.games := List.filter_true db.games
    rw [hfil]

/-- Witness for C6 at a concrete input: the wildcard-free search string
chrono on a one-game catalog. -/
theorem c6_title_lookup_insensitive_witness :
    (Db.empty.insert_game "Chrono Trigger" "Square" "1995").2.get_games_by_title "chrono" =
      .ok (((Db.empty.insert_game "Chrono Trigger" "Square" "1995").2.games.filter
        (fun g => ciStarts "chrono".data g.title.data)).map gameToStruct) ∧
    (Db.empty.insert_game "Chrono Trigger" "Square" "1995").2.get_games_by_title "" =
      .ok ((Db.empty.insert_game "Chrono Trigger" "Square" "1995").2.games.map gameToStruct) :=
  c6_title_lookup_insensitive (Db.empty.insert_game "Chrono Trigger" "Square" "1995").2
    "chrono" (by decide) (by decide)

theorem digitChar_isDigit (d : Nat) : (digitChar d).isDigit = true := by
  unfold digitChar; split <;> decide

theorem digitChar_val (d : Nat) (h : d < 10) : (digitChar d).toNat - 48 = d := by
  interval_cases d <;> decide

theorem decValue_append_one (l : List Char) (c : Char) :
    decValue (l ++ [c]) = decValue l * 10 + (c.toNat - 48) := by
  unfold decValue
  rw [List.foldl_append]
  rfl

theorem natDigitsRevFuel_ne_nil (fuel n : Nat) (h : n < fuel) :
    natDigitsRevFuel fuel n ≠ [] := by
  cases fuel with
  | zero => omega
  | succ f =>
    unfold natDigitsRevFuel
    split <;> simp

theorem natDigitsRevFuel_allDigits (fuel n : Nat) :
    allDigits (natDigitsRevFuel fuel n) = true := by
  induction fuel generalizing n with
  | zero => rfl
  | succ f ih =>
    unfold natDigitsRevFuel
    split
    · simp [allDigits, digitChar_isDigit]
    · simp only [allDigits, List.all_cons, Bool.and_eq_true]
      exact ⟨digitChar_isDigit _, ih (n / 10)⟩

theorem decValue_rev_natDigitsRevFuel (fuel : Nat) :
    ∀ n, n < fuel → decValue (natDigitsRevFuel fuel n).reverse = n := by
  induction fuel with
  | zero => intro n h; omega
  | succ f ih =>
    intro n h
    unfold natDigitsRevFuel
    split
    · next h10 =>
      simp only [List.reverse_singleton]
      unfold decValue
      simp only [List.foldl_cons, List.foldl_nil]
      have := digitChar_val n h10
      omega
    · next h10 =>
      push_neg at h10
      rw [List.reverse_cons, decValue_append_one]
      have hlt : n / 10 < f := by omega
      rw [ih (n / 10) hlt]
      have := digitChar_val (n % 10) (by omega)
      omega

theorem isDigit_ne_minus (c : Char) (h : c.isDigit = true) : (c == '-') = false := by
  cases hc : c == '-' with
  | false => rfl
  | true =>
    have he : c = '-' := eq_of_beq hc
    subst he
    simp at h

theorem isDigit_ne_plus (c : Char) (h : c.isDigit = true) : (c == '+') = false := by
  cases hc : c == '+' with
  | false => rfl
  | true =>
    have he : c = '+' := eq_of_beq hc
    subst he
    simp at h

theorem isDigit_beq_false (c x : Char) (hc : c.isDigit = true) (hx : x.isDigit = false) :
    (c == x) = false := by
  cases hb : c == x with
  | false => rfl
  | true =>
    have he : c = x := eq_of_beq hb
    subst he
    rw [hc] at hx
    cases hx

theorem allDigits_rev_natDigitsRev (n : Nat) :
    allDigits (natDigitsRev n).reverse = true := by
  unfold natDigitsRev
  rw [allDigits, List.all_reverse]
  exact natDigitsRevFuel_allDigits (n + 1) n

theorem mem_digits_isDigit (n : Nat) (c : Char) (hc : c ∈ (natDigitsRev n).reverse) :
    c.isDigit = true := by
  have hall := allDigits_rev_natDigitsRev n
  unfold allDigits at hall
  exact List.all_eq_true.1 hall c hc

theorem isSqlSpace_of_digit (c : Char) (h : c.isDigit = true) : isSqlSpace c = false := by
  unfold isSqlSpace
  rw [isDigit_beq_false c ' ' h (by decide), isDigit_beq_false c '\t' h (by decide),
    isDigit_beq_false c '\n' h (by decide), isDigit_beq_false c '\x0b' h (by decide),
    isDigit_beq_false c '\x0c' h (by decide), isDigit_beq_false c '\r' h (by decide)]
  rfl

theorem trimSpaces_eq_self (cs : List Char) (h : ∀ c ∈ cs, isSqlSpace c = false) :
    trimSpaces cs = cs := by
  unfold trimSpaces
  have hd1 : cs.dropWhile isSqlSpace = cs := by
    cases cs with
    | nil => rfl
    | cons c rest =>
      rw [List.dropWhile_cons, h c (List.mem_cons_self c rest)]
      simp
  rw [hd1]
  have hd2 : cs.reverse.dropWhile isSqlSpace = cs.reverse := by
    cases hrev : cs.reverse with
    | nil => rfl
    | cons c rest =>
      have hcm : c ∈ cs := by
        rw [← List.mem_reverse, hrev]
        exact List.mem_cons_self c rest
      rw [List.dropWhile_cons, h c hcm]
      simp
  rw [hd2, List.reverse_reverse]

theorem takeWhile_eq_self_of_all (p : Char → Bool) (l : List Char)
    (h : ∀ c ∈ l, p c = true) : l.takeWhile p = l := by
  induction l with
  | nil => rfl
  | cons c rest ih =>
    rw [List.takeWhile_cons, h c (List.mem_cons_self c rest)]
    simp [ih (fun x hx => h x (List.mem_cons_of_mem c hx))]

theorem dropWhile_eq_nil_of_all (p : Char → Bool) (l : List Char)
    (h : ∀ c ∈ l, p c = true) : l.dropWhile p = [] := by
  induction l with
  | nil => rfl
  | cons c rest ih =>
    rw [List.dropWhile_cons, h c (List.mem_cons_self c rest)]
    simp [ih (fun x hx => h x (List.mem_cons_of_mem c hx))]

theorem numAfterDigits_digits (neg : Bool) (n : Nat) :
    numAfterDigits neg (((natDigitsRev n).reverse).takeWhile Char.isDigit)
      (((natDigitsRev n).reverse).dropWhile Char.isDigit) = some (neg, n, 0) := by
  have hne : (natDigitsRev n).reverse ≠ [] := by
    rw [ne_eq, List.reverse_eq_nil_iff]
    exact natDigitsRevFuel_ne_nil (n + 1) n (by omega)
  rw [takeWhile_eq_self_of_all _ _ (fun c hc => mem_digits_isDigit n c hc),
    dropWhile_eq_nil_of_all _ _ (fun c hc => mem_digits_isDigit n c hc)]
  unfold numAfterDigits numTail
  simp only []
  rw [if_neg (by simp [List.isEmpty_eq_false, hne])]
  have hdv : decValue ((natDigitsRev n).reverse) = n := by
    unfold natDigitsRev
    exact decValue_rev_natDigitsRevFuel (n + 1) n (by omega)
  rw [hdv]
  norm_num

theorem splitSign_digits (n : Nat) :
    splitSign ((natDigitsRev n).reverse) = (false, (natDigitsRev n).reverse) := by
  have hne : (natDigitsRev n).reverse ≠ [] := by
    rw [ne_eq, List.reverse_eq_nil_iff]
    exact natDigitsRevFuel_ne_nil (n + 1) n (by omega)
  cases hrev : (natDigitsRev n).reverse with
  | nil => exact absurd hrev hne
  | cons c cs =>
    have hcd : c.isDigit = true := by
      refine mem_digits_isDigit n c ?_
      rw [hrev]
      exact List.mem_cons_self c cs
    unfold splitSign
    simp only []
    rw [isDigit_beq_false c '-' hcd (by decide), isDigit_beq_false c '+' hcd (by decide)]
    simp

theorem sqliteNum?_natDisplay (n : Nat) :
    sqliteNum? (natDisplay n) = some (false, n, 0) := by
  have htrim : trimSpaces (natDisplay n).data = (natDigitsRev n).reverse :=
    trimSpaces_eq_self _ (fun c hc => isSqlSpace_of_digit c (mem_digits_isDigit n c hc))
  show numAfterDigits (splitSign (trimSpaces (natDisplay n).data)).1
      ((splitSign (trimSpaces (natDisplay n).data)).2.takeWhile Char.isDigit)
      ((splitSign (trimSpaces (natDisplay n).data)).2.dropWhile Char.isDigit) =
      some (false, n, 0)
  rw [htrim, splitSign_digits n]
  exact numAfterDigits_digits false n

theorem sqliteNum?_negDisplay (n : Nat) :
    sqliteNum? ("-" ++ natDisplay (n + 1)) = some (true, n + 1, 0) := by
  have hdata : (("-" ++ natDisplay (n + 1)) : String).data =
      '-' :: (natDigitsRev (n + 1)).reverse := by
    rw [String.data_append]
    rfl
  have htrim : trimSpaces (('-') :: (natDigitsRev (n + 1)).reverse) =
      '-' :: (natDigitsRev (n + 1)).reverse := by
    refine trimSpaces_eq_self _ (fun c hc => ?_)
    rcases List.mem_cons.1 hc with h | h
    · subst h; decide
    · exact isSqlSpace_of_digit c (mem_digits_isDigit (n + 1) c h)
  have hsplit : splitSign (('-') :: (natDigitsRev (n + 1)).reverse) =
      (true, (natDigitsRev (n + 1)).reverse) := by
    unfold splitSign
    simp only []
    simp
  show numAfterDigits (splitSign (trimSpaces (("-" ++ natDisplay (n + 1)) : String).data)).1
      ((splitSign (trimSpaces (("-" ++ natDisplay (n + 1)) : String).data)).2.takeWhile
        Char.isDigit)
      ((splitSign (trimSpaces (("-" ++ natDisplay (n + 1)) : String).data)).2.dropWhile
        Char.isDigit) = some (true, n + 1, 0)
  rw [hdata, htrim, hsplit]
  exact numAfterDigits_digits true (n + 1)

theorem numericAffinity_intDisplay (v : Int) (h : inI32 v = true) :
    numericAffinity (intDisplay v) = .int v := by
  unfold inI32 at h
  rw [Bool.and_eq_true, decide_eq_true_eq, decide_eq_true_eq] at h
  cases v with
  | ofNat n =>
    have hs : sqliteNum? (intDisplay (Int.ofNat n)) = some (false, n, 0) :=
      sqliteNum?_natDisplay n
    unfold numericAffinity
    rw [hs]
    simp only []
    have hval : numIntVal false n 0 = (n : Int) := by
      unfold numIntVal
      norm_num
    have hint : numIsIntegral n 0 = true := by
      unfold numIsIntegral
      simp
    have hrange : i64Min ≤ ((n : Int)) ∧ ((n : Int)) ≤ i64Max := by
      unfold i64Min i64Max
      rw [Int.ofNat_eq_natCast] at h
      omega
    rw [hint]
    simp only [eq_self_iff_true, if_true, hval]
    rw [if_pos hrange]
    rfl
  | negSucc n =>
    have hs : sqliteNum? (intDisplay (Int.negSucc n)) = some (true, n + 1, 0) :=
      sqliteNum?_negDisplay n
    unfold numericAffinity
    rw [hs]
    simp only []
    have hval : numIntVal true (n + 1) 0 = Int.negSucc n := by
      unfold numIntVal
      rw [Int.negSucc_eq]
      norm_num
    have hint : numIsIntegral (n + 1) 0 = true := by
      unfold numIsIntegral
      simp
    have hrange : i64Min ≤ Int.negSucc n ∧ Int.negSucc n ≤ i64Max := by
      unfold i64Min i64Max
      rw [Int.negSucc_eq] at h ⊢
      omega
    rw [hint]
    simp only [eq_self_iff_true, if_true, hval]
    rw [if_pos hrange]

theorem readI32_inI32 (x : SqlValue) : inI32 (readI32 x) = true := by
  cases x with
  | int v =>
    show inI32 (if inI32 v then v else 0) = true
    cases hv : inI32 v with
    | true => simpa using hv
    | false =>
      simp only [Bool.false_eq_true, if_false]
      decide
  | text s =>
    show inI32 (0 : Int) = true
    decide
  | real s =>
    show inI32 (0 : Int) = true
    decide

/-- C9 counterexample: on a game stored with the non-integer date
1995-03-11, the edit with an empty title, publisher Squaresoft and an
empty date changes the stored release_date (from the TEXT 1995-03-11 to
the INTEGER 0), contradicting the claim that the stored release date is
left unchanged. -/
theorem c9_edit_counterexample :
    ((match editGameSave (Db.empty.insert_game "Chrono Trigger" "Square" "1995-03-11").2 1
        "" "Squaresoft" "" with
      | .ok db2 => db2.games.map (fun g => g.release_date)
      | .err _ => []
      | .panic _ => []) : List SqlValue) ≠
    (Db.empty.insert_game "Chrono Trigger" "Square" "1995-03-11").2.games.map
      (fun g => g.release_date) := by decide

/-- C9 as amended: the edit with an empty title, a non-empty publisher
and an empty date rewrites the matching row with its old title, the new
publisher, and the decimal rendering of the i32 the row mapper read
from the stored date — so the stored release date survives only when it
was an INTEGER, and a TEXT date collapses to 0; every other row is left
unchanged.  update_game is invoked because one submitted field is
non-empty (whether or not any value actually changed).  The chosen id
fits an i32 because the workflow parses it with parse::<i32>, and the
stored INTEGER dates the mapper preserves are the in-i32-range ones
(a wider INTEGER is an OutOfRange read, defaulted to 0). -/
theorem c9_edit_updates_publisher_only (db : Db) (gid : Int) (row : GameRow) (npub : String)
    (h1 : npub ≠ "") (h2 : db.games.find? (fun g => g.id == gid) = some row)
    (h3 : inI32 gid = true) :
    editGameSave db gid "" npub "" =
      .ok { db with games := db.games.map (fun g =>
        if g.id == gid then ⟨g.id, row.title, npub, .int (readI32 row.release_date)⟩
        else g) } := by
  have hnpub : (npub == "") = false := by
    cases hb : npub == "" with
    | false => rfl
    | true => exact absurd (eq_of_beq hb) h1
  have hrid : row.id = gid := by
    have hb := @List.find?_some _ (fun g => g.id == gid) row db.games h2
    simp only [beq_iff_eq] at hb
    exact hb
  have hrowI : inI32 row.id = true := by rw [hrid]; exact h3
  have hmap := mapGameRow_gameSelectRow row hrowI
  unfold editGameSave Db.get_game
  rw [h2]
  simp only [hmap, hnpub, gameToStruct, Bool.and_false, Bool.false_and,
    Bool.and_true, Bool.true_and, beq_self_eq_true, if_true, Bool.false_eq_true, if_false]
  unfold Db.update_game
  rw [numericAffinity_intDisplay _ (readI32_inI32 row.release_date)]

/-- Witness for C9 at a concrete input: a game stored with the integer
date 1995, edited to publisher Squaresoft. -/
theorem c9_edit_updates_publisher_only_witness :
    editGameSave (Db.empty.insert_game "X" "Y" "1995").2 1 "" "Squaresoft" "" =
      .ok { (Db.empty.insert_game "X" "Y" "1995").2 with
        games := (Db.empty.insert_game "X" "Y" "1995").2.games.map (fun g =>
          if g.id == 1 then
            ⟨g.id, (⟨1, "X", "Y", .int 1995⟩ : GameRow).title, "Squaresoft",
              .int (readI32 (⟨1, "X", "Y", .int 1995⟩ : GameRow).release_date)⟩
          else g) } :=
  c9_edit_updates_publisher_only (Db.empty.insert_game "X" "Y" "1995").2 1
    ⟨1, "X", "Y", .int 1995⟩ "Squaresoft" (by decide) (by decide) (by decide)

theorem lookupEntry_append_sing (d : List (String × Entry)) (n m : String) (e : Entry)
    (h : lookupEntry d m = none) :
    lookupEntry (d ++ [(n, e)]) m = if n == m then some e else none := by
  unfold lookupEntry at h ⊢
  rw [List.find?_append]
  cases hf : d.find? (fun p => p.1 == m) with
  | some q => rw [hf] at h; simp at h
  | none =>
    simp only [Option.none_or]
    cases hnm : n == m with
    | true => simp [List.find?_cons, hnm]
    | false => simp [List.find?_cons, hnm]

theorem setEntry_of_fresh (d : List (String × Entry)) (n : String) (e : Entry)
    (h : lookupEntry d n = none) : setEntry d n e = d ++ [(n, e)] := by
  induction d with
  | nil => rfl
  | cons hd tl ih =>
    unfold lookupEntry at h
    rw [List.find?_cons] at h
    cases hhd : hd.1 == n with
    | true => rw [hhd] at h; simp at h
    | false =>
      rw [hhd] at h
      simp only at h
      unfold setEntry
      simp only [hhd, Bool.false_eq_true, if_false]
      rw [ih h]
      simp

theorem wfDir_cons_parts (n : String) (e : Entry) (rest : List (String × Entry))
    (h : wfDir ((n, e) :: rest) = true) :
    n ∉ rest.map (fun p => p.1) ∧ wfDir rest = true ∧
    ∀ sub, e = Entry.dir sub → wfDir sub = true := by
  cases e with
  | file c =>
    simp only [wfDir, Bool.and_eq_true] at h
    refine ⟨?_, h.2, fun sub hs => by cases hs⟩
    simpa using h.1.1
  | dir s =>
    simp only [wfDir, Bool.and_eq_true] at h
    refine ⟨?_, h.2, fun sub hs => by cases hs; exact h.1.2⟩
    simpa using h.1.1

theorem beq_eq_false_of_ne {n m : String} (h : n ≠ m) : (n == m) = false := by
  cases hb : n == m with
  | false => rfl
  | true => exact absurd (eq_of_beq hb) h

theorem copyEntries_fresh : ∀ (src d : List (String × Entry)),
    wfDir src = true → (∀ n ∈ src.map (fun p => p.1), lookupEntry d n = none) →
    copyEntries src d = .ok (d ++ src) := by
  intro src d
  induction src, d using copyEntries.induct with
  | case1 d => intro _ _; simp [copyEntries]
  | case2 n c rest d entries hlk =>
    intro _ hfresh
    rw [hfresh n (by simp)] at hlk
    cases hlk
  | case3 n c rest d hnd ih =>
    intro hwf hfresh
    have hlk : lookupEntry d n = none := hfresh n (by simp)
    obtain ⟨hnotin, hwrest, _⟩ := wfDir_cons_parts n _ rest hwf
    have hset : setEntry d n (Entry.file c) = d ++ [(n, Entry.file c)] :=
      setEntry_of_fresh d n _ hlk
    rw [copyEntries, hlk]
    simp only []
    rw [ih hwrest ?hfr, hset, List.append_assoc]
    · rfl
    case hfr =>
      intro m hm
      rw [hset, lookupEntry_append_sing d n m _ (hfresh m (by simp [hm]))]
      rw [beq_eq_false_of_ne (fun he => hnotin (by rw [he]; exact hm))]
      simp
  | case4 n sub rest d contents hlk hemp ih =>
    intro _ hfresh
    rw [hfresh n (by simp)] at hlk
    cases hlk
  | case5 n sub rest d contents hlk hemp =>
    intro _ hfresh
    rw [hfresh n (by simp)] at hlk
    cases hlk
  | case6 n sub rest d es hlk sub2 hsub ihsub ihrest =>
    intro _ hfresh
    rw [hfresh n (by simp)] at hlk
    cases hlk
  | case7 n sub rest d es hlk msg hsub ihsub =>
    intro _ hfresh
    rw [hfresh n (by simp)] at hlk
    cases hlk
  | case8 n sub rest d es hlk m hsub ihsub =>
    intro _ hfresh
    rw [hfresh n (by simp)] at hlk
    cases hlk
  | case9 n sub rest d hlk sub2 hsub ihsub ihrest =>
    intro hwf hfresh
    obtain ⟨hnotin, hwrest, hwsub⟩ := wfDir_cons_parts n _ rest hwf
    have hsub2 : sub2 = sub := by
      have hok := ihsub (hwsub sub rfl) (by intro m hm; rfl)
      rw [hsub] at hok
      cases hok
      rfl
    rw [hsub2] at ihrest
    have hset : setEntry d n (Entry.dir sub) = d ++ [(n, Entry.dir sub)] :=
      setEntry_of_fresh d n _ hlk
    rw [copyEntries.eq_def]
    simp only [hlk, hsub, hsub2]
    rw [ihrest hwrest ?hfr9, hset, List.append_assoc]
    · rfl
    case hfr9 =>
      intro m hm
      rw [hset, lookupEntry_append_sing d n m _ (hfresh m (by simp [hm]))]
      rw [beq_eq_false_of_ne (fun he => hnotin (by rw [he]; exact hm))]
      simp
  | case10 n sub rest d hlk msg hsub ihsub =>
    intro hwf hfresh
    obtain ⟨hnotin, hwrest, hwsub⟩ := wfDir_cons_parts n _ rest hwf
    have hok := ihsub (hwsub sub rfl) (by intro m hm; rfl)
    rw [hsub] at hok
    cases hok
  | case11 n sub rest d hlk m hsub ihsub =>
    intro hwf hfresh
    obtain ⟨hnotin, hwrest, hwsub⟩ := wfDir_cons_parts n _ rest hwf
    have hok := ihsub (hwsub sub rfl) (by intro m hm; rfl)
    rw [hsub] at hok
    cases hok

/-- C3: copying a well-formed source tree (distinct entry names at
every level, the invariant read_dir guarantees) to a destination that
does not exist creates the destination and reproduces the source
exactly — same file set, byte-identical contents, nested subdirectories
and empty subdirectories included. -/
theorem c3_copy_round_trip (src : List (String × Entry)) (h : wfDir src = true) :
    copy_files (some src) none = .ok src := by
  unfold copy_files
  have hmain := copyEntries_fresh src [] h (fun n _ => rfl)
  simpa using hmain

/-- Witness for C3 at a concrete input: a tree with a nested
subdirectory and an empty subdirectory. -/
theorem c3_copy_round_trip_witness :
    copy_files (some [("slot1.sav", Entry.file [1, 2, 3]),
      ("nested", Entry.dir [("deep", Entry.dir [("b.sav", Entry.file [4])]),
        ("c.sav", Entry.file [5])]),
      ("empty", Entry.dir [])]) none =
    .ok [("slot1.sav", Entry.file [1, 2, 3]),
      ("nested", Entry.dir [("deep", Entry.dir [("b.sav", Entry.file [4])]),
        ("c.sav", Entry.file [5])]),
      ("empty", Entry.dir [])] :=
  c3_copy_round_trip _ (by simp [wfDir])

/-- C7: when the copy step of the Add workflow fails (the entered live
save directory does not exist, so read_dir returns an Err), the
sequence does stop there — but the error is not surfaced to the caller:
the .expect turns it into a panic that aborts the process, even though
the function documents that it returns the error.  The catalog rows
inserted by the earlier steps stay behind in the database file. -/
theorem c7_add_panics_on_copy_failure :
    addGameSave ⟨Db.empty, []⟩ "Chrono Trigger" "Square" "1995" "SNES" "/saves/missing" none
      = .panic "Failed to copy files" := rfl

theorem get_game_delete_game (db : Db) (gid : Int) :
    (db.delete_game gid).get_game gid = .ok sentinelGame := by
  unfold Db.delete_game Db.get_game
  have h : (db.games.filter (fun g => !(g.id == gid))).find? (fun g => g.id == gid) = none := by
    refine List.find?_eq_none.2 (fun g hg => ?_)
    have := (List.mem_filter.1 hg).2
    simp at this
    simp [this]
  rw [h]

theorem removeStep_backups_mem (acc : World) (s : Save)
    (x : (Int × Int × Int) × List (String × Entry))
    (hx : x ∈ (removeStep acc s).backups) :
    x ∈ acc.backups ∧ x.1 ≠ (s.game_id, s.platform_id, s.id) := by
  unfold removeStep at hx
  simp only at hx
  cases hlb : (lookupBackup acc.backups (s.game_id, s.platform_id, s.id)).isSome with
  | true =>
    rw [hlb] at hx
    simp only [if_true] at hx
    unfold removeBackup at hx
    have hmf := List.mem_filter.1 hx
    refine ⟨hmf.1, ?_⟩
    have h2 := hmf.2
    simp only [Bool.not_eq_true'] at h2
    intro he
    rw [he] at h2
    simp at h2
  | false =>
    rw [hlb] at hx
    simp only [Bool.false_eq_true, if_false] at hx
    refine ⟨hx, ?_⟩
    have hnone : lookupBackup acc.backups (s.game_id, s.platform_id, s.id) = none := by
      cases hv : lookupBackup acc.backups (s.game_id, s.platform_id, s.id) with
      | none => rfl
      | some v => rw [hv] at hlb; cases hlb
    unfold lookupBackup at hnone
    have hfind : acc.backups.find? (fun p => p.1 == (s.game_id, s.platform_id, s.id)) = none := by
      cases hf : acc.backups.find? (fun p => p.1 == (s.game_id, s.platform_id, s.id)) with
      | none => rfl
      | some q => rw [hf] at hnone; cases hnone
    have := List.find?_eq_none.1 hfind x hx
    intro he
    rw [he] at this
    simp at this

theorem foldl_removeStep_backups_mem (saves : List Save) :
    ∀ (acc : World) (x : (Int × Int × Int) × List (String × Entry)),
      x ∈ (saves.foldl removeStep acc).backups →
      x ∈ acc.backups ∧ ∀ s ∈ saves, x.1 ≠ (s.game_id, s.platform_id, s.id) := by
  induction saves with
  | nil => intro acc x hx; exact ⟨hx, fun s hs => absurd hs (List.not_mem_nil s)⟩
  | cons s rest ih =>
    intro acc x hx
    rw [List.foldl_cons] at hx
    obtain ⟨hx1, hx2⟩ := ih (removeStep acc s) x hx
    obtain ⟨hx3, hx4⟩ := removeStep_backups_mem acc s x hx1
    refine ⟨hx3, fun t ht => ?_⟩
    rcases List.mem_cons.1 ht with h | h
    · subst h; exact hx4
    · exact hx2 t h

theorem setBackup_mem (b : List ((Int × Int × Int) × List (String × Entry)))
    (k : Int × Int × Int) (v : List (String × Entry))
    (x : (Int × Int × Int) × List (String × Entry)) (hx : x ∈ setBackup b k v) :
    x ∈ b ∨ x = (k, v) := by
  induction b with
  | nil =>
    unfold setBackup at hx
    exact Or.inr (List.mem_singleton.1 hx)
  | cons hd tl ih =>
    unfold setBackup at hx
    cases hm : hd.1 == k with
    | true =>
      rw [hm] at hx
      simp only [if_true] at hx
      rcases List.mem_cons.1 hx with h | h
      · right
        rw [h]
        have he : hd.1 = k := eq_of_beq hm
        rw [he]
      · exact Or.inl (List.mem_cons_of_mem hd h)
    | false =>
      rw [hm] at hx
      simp only [Bool.false_eq_true, if_false] at hx
      rcases List.mem_cons.1 hx with h | h
      · exact Or.inl (by rw [h]; exact List.mem_cons_self hd tl)
      · rcases ih h with h2 | h2
        · exact Or.inl (List.mem_cons_of_mem hd h2)
        · exact Or.inr h2

/-- C1: for a game added through the Add workflow (which assigns it the
fresh id of insert_game), running the Remove workflow on that id
afterwards leaves no Game row for the id (get_game returns the
not-found sentinel) and no backup directory
backups/{id}/{platform_id}/{save_id}/ for any of its saves on disk.
The one precondition is that the backup tree held no stray directory
under the fresh id beforehand, which holds of every tree the program
builds since ids of existing backups come from earlier, smaller rowids.
Filesystem removal runs before catalog removal inside the loop, and
Platform rows are untouched. -/
theorem c1_add_then_remove (w : World)
    (title publisher release_date platform location : String)
    (liveDir : Option (List (String × Entry))) (w1 w2 : World)
    (hclean : ∀ b ∈ w.backups, b.1.1 ≠ (w.db.insert_game title publisher release_date).1)
    (hadd : addGameSave w title publisher release_date platform location liveDir = .ok w1)
    (hrem : removeGameSave w1 (w.db.insert_game title publisher release_date).1 = .ok w2) :
    w2.db.get_game (w.db.insert_game title publisher release_date).1 = .ok sentinelGame ∧
    ∀ b ∈ w2.backups, b.1.1 ≠ (w.db.insert_game title publisher release_date).1 := by
  unfold addGameSave at hadd
  simp only [] at hadd
  set gid := (w.db.insert_game title publisher release_date).1 with hgid
  set db1 := (w.db.insert_game title publisher release_date).2 with hdb1
  set pid := (db1.insert_platform platform).1 with hpid
  set db2 := (db1.insert_platform platform).2 with hdb2
  set lid := (db2.insert_location location "").1 with hlid
  set db3 := (db2.insert_location location "").2 with hdb3
  set sid := (db3.insert_save gid lid "" pid).1 with hsid
  set db4 := (db3.insert_save gid lid "" pid).2 with hdb4
  cases hcopy : copy_files liveDir (lookupBackup w.backups (gid, pid, sid)) with
  | err e => rw [hcopy] at hadd; exact Outcome.noConfusion hadd
  | panic m => rw [hcopy] at hadd; exact Outcome.noConfusion hadd
  | ok dcopy =>
    rw [hcopy] at hadd
    simp only [] at hadd
    injection hadd with hw1
    subst hw1
    unfold removeGameSave at hrem
    simp only [] at hrem
    cases hgg : db4.get_game gid with
    | error e =>
      rw [hgg] at hrem
      exact Outcome.noConfusion hrem
    | ok g0 =>
    rw [hgg] at hrem
    simp only [] at hrem
    cases hsv : db4.get_all_saves_by_id gid with
    | error e =>
      rw [hsv] at hrem
      exact Outcome.noConfusion hrem
    | ok saves =>
    rw [hsv] at hrem
    simp only [] at hrem
    injection hrem with hw2
    subst hw2
    constructor
    · exact get_game_delete_game _ gid
    · intro b hb
      obtain ⟨hb1, hb2⟩ := foldl_removeStep_backups_mem _ _ _ hb
      rcases setBackup_mem _ _ _ _ hb1 with h | h
      · exact hclean b h
      · exfalso
        have hrow : (⟨sid, gid, lid, "", pid⟩ : SaveRow) ∈
            db4.saves.filter (fun s => s.game_id == gid) := by
          refine List.mem_filter.2 ⟨?_, by simp⟩
          rw [hsid, hdb4]
          exact List.mem_append_right _ (List.mem_singleton.2 rfl)
        have hmap : (db4.saves.filter (fun s => s.game_id == gid)).mapM
            (fun s => mapSaveRow (saveSelectRow s)) = .ok saves := hsv
        obtain ⟨y, hy, hymem⟩ := mapM_ok_of_mem _ _ _ hmap _ hrow
        have hyeq : y = saveToStruct ⟨sid, gid, lid, "", pid⟩ := mapSaveRow_ok_eq _ _ hy
        have hne := hb2 y hymem
        rw [hyeq, h] at hne
        exact hne rfl

theorem add_eval_concrete :
    addGameSave ⟨Db.empty, []⟩ "Chrono Trigger" "Square" "1995" "SNES" "/saves/ct"
      (some [("slot1.sav", Entry.file [1, 2])]) =
    .ok ⟨⟨[⟨1, "Chrono Trigger", "Square", .int 1995⟩], [⟨1, "SNES"⟩],
      [⟨1, "/saves/ct", ""⟩], [⟨1, 1, 1, "", 1⟩], 1⟩,
      [((1, 1, 1), [("slot1.sav", Entry.file [1, 2])])]⟩ := by
  simp [addGameSave, copy_files, copyEntries, setEntry, lookupEntry, lookupBackup, setBackup,
    Db.insert_game, Db.insert_platform, Db.insert_location, Db.insert_save, Db.empty, freshId,
    numericAffinity, sqliteNum?, trimSpaces, isSqlSpace, splitSign, numAfterDigits, numTail,
    numIsIntegral, numIntVal, decValue, i64Min, i64Max]

theorem remove_eval_concrete :
    removeGameSave ⟨⟨[⟨1, "Chrono Trigger", "Square", .int 1995⟩], [⟨1, "SNES"⟩],
      [⟨1, "/saves/ct", ""⟩], [⟨1, 1, 1, "", 1⟩], 1⟩,
      [((1, 1, 1), [("slot1.sav", Entry.file [1, 2])])]⟩ 1 =
    .ok ⟨⟨[], [⟨1, "SNES"⟩], [], [], 1⟩, []⟩ := rfl

/-- Witness for C1 at a concrete input: adding Chrono Trigger with one
save file to the empty world and removing it again; afterwards the
catalog holds only the Platform row and the backup tree is empty. -/
theorem c1_add_then_remove_witness :
    (⟨⟨[], [⟨1, "SNES"⟩], [], [], 1⟩, []⟩ : World).db.get_game 1 = .ok sentinelGame ∧
    ∀ b ∈ (⟨⟨[], [⟨1, "SNES"⟩], [], [], 1⟩, []⟩ : World).backups, b.1.1 ≠ (1 : Int) :=
  c1_add_then_remove ⟨Db.empty, []⟩ "Chrono Trigger" "Square" "1995" "SNES" "/saves/ct"
    (some [("slot1.sav", Entry.file [1, 2])])
    ⟨⟨[⟨1, "Chrono Trigger", "Square", .int 1995⟩], [⟨1, "SNES"⟩],
      [⟨1, "/saves/ct", ""⟩], [⟨1, 1, 1, "", 1⟩], 1⟩,
      [((1, 1, 1), [("slot1.sav", Entry.file [1, 2])])]⟩
    ⟨⟨[], [⟨1, "SNES"⟩], [], [], 1⟩, []⟩
    (by intro b hb; exact absurd hb (List.not_mem_nil b))
    add_eval_concrete remove_eval_concrete
